import Mathlib

/-!
Verification of the AI-response parsing / prompt-construction subsystem of the
harvard_dinner repository (GigaChatService, two variants).

JavaScript strings are modelled as `List Char` (`Str`).  The JS string
operations used by the source (`split`, `trim`, `includes`, `startsWith`,
`replace` with a string pattern, `indexOf`/`lastIndexOf`, `slice`,
`toLowerCase`, `parseInt`, `match` with the four regexes appearing in the
source) are given explicit executable models below.  Regex matching is
modelled by a small backtracking engine (`matchItems`) that is faithful to
the JS engine's leftmost-match / greedy-longest-first / lazy-shortest-first
backtracking order for the simple patterns used by the source (literals and
quantified character classes only).  `JSON.parse` is modelled by `Json.parse`,
a fuel-based recursive-descent parser for the JSON fragment exercised by this
code base (integer numerals, strings with the single-character escapes,
arrays, objects with last-key-wins access, `null`, booleans).
`parseInt` is modelled for decimal numerals (`jsParseInt`), returning `none`
for NaN.
-/

/-- JS strings as lists of characters. -/
abbrev Str := List Char

/-- Shorthand turning a Lean string literal into the `Str` model. -/
def str (s : String) : Str := s.data

/-- Whitespace class: models both the JS regex class `\s` and the character
set stripped by `String.prototype.trim` (restricted to the ASCII whitespace
characters, the only ones occurring in this code base). -/
def wsChar (c : Char) : Bool :=
  c == ' ' || c == '\t' || c == '\n' || c == '\r' || c == '\x0b' || c == '\x0c'

/-- Model of `String.prototype.trim`. -/
def trim (l : Str) : Str :=
  ((l.dropWhile wsChar).reverse.dropWhile wsChar).reverse

/-- Model of `String.prototype.includes` (substring test). -/
def containsSubstr (pat : Str) : Str → Bool
  | [] => pat.isPrefixOf []
  | c :: rest => pat.isPrefixOf (c :: rest) || containsSubstr pat rest

/-- Model of `String.prototype.replace` with a plain string pattern:
replaces the first occurrence of `pat` by `repl`. -/
def replaceFirst (pat repl : Str) : Str → Str
  | [] => if pat.isPrefixOf ([] : Str) then repl else []
  | c :: rest =>
      if pat.isPrefixOf (c :: rest) then repl ++ (c :: rest).drop pat.length
      else c :: replaceFirst pat repl rest

/-- Model of `Array.prototype.join(sep)` on strings. -/
def joinSep (sep : Str) : List Str → Str
  | [] => []
  | [x] => x
  | x :: y :: rest => x ++ sep ++ joinSep sep (y :: rest)

/-- Number of positions of `l` at which `pat` occurs (substring-occurrence
count, used to state the "exactly once / at least once" prompt properties). -/
def occCount (pat : Str) : Str → Nat
  | [] => if pat.isPrefixOf ([] : Str) then 1 else 0
  | c :: rest =>
      (if pat.isPrefixOf (c :: rest) then 1 else 0) + occCount pat rest

/-- ASCII / Cyrillic lower-casing of one character (the fragment of JS
`toLowerCase` relevant to the category strings handled by the parser). -/
def lowerChar (c : Char) : Char :=
  if 'A' ≤ c ∧ c ≤ 'Z' then Char.ofNat (c.toNat + 32)
  else if c.toNat ≥ 0x410 ∧ c.toNat ≤ 0x42F then Char.ofNat (c.toNat + 32)
  else if c.toNat = 0x401 then Char.ofNat 0x451
  else c

/-- Model of `String.prototype.toLowerCase` (restricted as `lowerChar`). -/
def toLower (l : Str) : Str := l.map lowerChar

/-- Digit character class (the JS regex class `\d`). -/
def isDigitChar (c : Char) : Bool := '0' ≤ c && c ≤ '9'

/-- Numeric value of a string of decimal digits. -/
def digitsToNat (l : Str) : Nat :=
  l.foldl (fun a c => a * 10 + (c.toNat - 48)) 0

/-- Model of JS `parseInt` on decimal input: skip leading whitespace, accept
an optional sign and a leading run of decimal digits; `none` models `NaN`. -/
def jsParseIntCore (r : Str) : Option Nat :=
  let ds := r.takeWhile isDigitChar
  if ds.isEmpty then none else some (digitsToNat ds)

def jsParseInt (s : Str) : Option Int :=
  match s.dropWhile wsChar with
  | '-' :: r => (jsParseIntCore r).map (fun n => -(n : Int))
  | '+' :: r => (jsParseIntCore r).map (fun n => (n : Int))
  | r => (jsParseIntCore r).map (fun n => (n : Int))

/-- Decimal rendering of an integer, modelling JS template interpolation of
a number. -/
def natToStr (n : Nat) : Str := Nat.toDigits 10 n

def intToStr (n : Int) : Str :=
  if n < 0 then '-' :: natToStr (-n).toNat else natToStr n.toNat

/-- One item of a (simple) regex: a literal character, a greedy `cls*`,
a lazy captured `(cls+?)`, or a greedy `cls+` (captured or not).  The four
regexes in the source consist only of such items. -/
inductive RItem where
  | lit (c : Char)
  | star (p : Char → Bool)
  | plusL (p : Char → Bool)
  | plusG (p : Char → Bool) (cap : Bool)

/-- First successful result of `f` over a list of candidates (models the
backtracking search order of the JS regex engine). -/
def firstSome {α β : Type} (f : α → Option β) : List α → Option β
  | [] => none
  | a :: as =>
      match f a with
      | some b => some b
      | none => firstSome f as

/-- Candidate repetition counts for a greedy `*`: `[m, m-1, ..., 0]`. -/
def descRange : Nat → List Nat
  | 0 => [0]
  | m + 1 => (m + 1) :: descRange m

/-- Candidate repetition counts for a greedy `+`: `[m, m-1, ..., 1]`. -/
def descRange1 : Nat → List Nat
  | 0 => []
  | m + 1 => (m + 1) :: descRange1 m

/-- Candidate repetition counts for a lazy `+?`: `[1, 2, ..., m]`. -/
def ascRange1 (m : Nat) : List Nat := (List.range m).map (fun i => i + 1)

/-- Backtracking matcher for a sequence of `RItem`s against a prefix of `s`
(anchored at the start of `s`; trailing input is allowed, as in JS `match`).
Returns the list of captured groups in order.  Quantified class items can
only consume characters of their class, so candidate lengths are bounded by
the maximal class run; greedy items try longer candidates first, lazy items
shorter first, which is exactly the JS backtracking order.  Each recursive
call consumes one item, so `items.length + 1` fuel is always sufficient. -/
def matchItems : Nat → List RItem → Str → Option (List Str)
  | _, [], _ => some []
  | 0, _ :: _, _ => none
  | fuel + 1, .lit c :: rest, s =>
      match s with
      | [] => none
      | x :: s2 => if x = c then matchItems fuel rest s2 else none
  | fuel + 1, .star p :: rest, s =>
      firstSome (fun k => matchItems fuel rest (s.drop k))
        (descRange ((s.takeWhile p).length))
  | fuel + 1, .plusL p :: rest, s =>
      firstSome
        (fun k => (matchItems fuel rest (s.drop k)).map (fun cs => s.take k :: cs))
        (ascRange1 ((s.takeWhile p).length))
  | fuel + 1, .plusG p cap :: rest, s =>
      firstSome
        (fun k => (matchItems fuel rest (s.drop k)).map
          (fun cs => if cap then s.take k :: cs else cs))
        (descRange1 ((s.takeWhile p).length))

/-- Unanchored regex search (JS `String.prototype.match` with a non-anchored
pattern): try each start position from the left, first success wins. -/
def regexSearch (items : List RItem) (s : Str) : Option (List Str) :=
  firstSome (matchItems (items.length + 1) items) s.tails

/-!
## JSON model

`Json.parse` models the JS builtin `JSON.parse` on the grammar fragment this
code base exercises: `null`, `true`, `false`, integer numerals (JSON forbids
leading zeros; fractional/exponent parts and `\u` escapes are outside the
modelled fragment and make the parse fail), strings with one-character
escapes, arrays and objects.  Objects keep their members in textual order;
property access (`jGet`) returns the last binding of a key, which is JS
semantics for duplicate keys.
-/

inductive Json where
  | null : Json
  | bool (b : Bool) : Json
  | num (n : Int) : Json
  | str (s : Str) : Json
  | arr (elems : List Json) : Json
  | obj (members : List (Str × Json)) : Json

/-- JSON inter-token whitespace. -/
def jsonWs (c : Char) : Bool :=
  c == ' ' || c == '\t' || c == '\n' || c == '\r'

def skipWs (s : Str) : Str := s.dropWhile jsonWs

/-- Parse the body of a JSON string literal (after the opening quote),
returning its characters and the input after the closing quote. -/
def parseStringBody : Str → Option (Str × Str)
  | [] => none
  | '"' :: rest => some ([], rest)
  | '\\' :: e :: rest =>
      (match e with
       | '"' => some '"'
       | '\\' => some '\\'
       | '/' => some '/'
       | 'b' => some '\x08'
       | 'f' => some '\x0c'
       | 'n' => some '\n'
       | 'r' => some '\r'
       | 't' => some '\t'
       | _ => none).bind
        (fun c =>
          (parseStringBody rest).map (fun (pr : Str × Str) => (c :: pr.1, pr.2)))
  | '\\' :: [] => none
  | c :: rest =>
      if c.toNat < 0x20 then none
      else (parseStringBody rest).map (fun pr => (c :: pr.1, pr.2))

/-- Parse a JSON integer numeral (optional minus, no leading zeros). -/
def parseIntLit (s : Str) : Option (Int × Str) :=
  match s with
  | '-' :: r =>
      (match r.takeWhile isDigitChar with
       | [] => none
       | '0' :: _ :: _ => none
       | ds => some (-(digitsToNat ds : Int), r.drop ds.length))
  | r =>
      (match r.takeWhile isDigitChar with
       | [] => none
       | '0' :: _ :: _ => none
       | ds => some ((digitsToNat ds : Int), r.drop ds.length))

mutual

/-- Parse one JSON value at the front of the input. -/
def parseValue : Nat → Str → Option (Json × Str)
  | 0, _ => none
  | fuel + 1, s =>
      match skipWs s with
      | 'n' :: 'u' :: 'l' :: 'l' :: rest => some (.null, rest)
      | 't' :: 'r' :: 'u' :: 'e' :: rest => some (.bool true, rest)
      | 'f' :: 'a' :: 'l' :: 's' :: 'e' :: rest => some (.bool false, rest)
      | '"' :: rest =>
          (parseStringBody rest).map (fun (pr : Str × Str) => (.str pr.1, pr.2))
      | '[' :: rest =>
          (match skipWs rest with
           | ']' :: rest2 => some (.arr [], rest2)
           | _ => (parseElems fuel rest).map (fun pr => (.arr pr.1, pr.2)))
      | '{' :: rest =>
          (match skipWs rest with
           | '}' :: rest2 => some (.obj [], rest2)
           | _ => (parseMembers fuel rest).map (fun pr => (.obj pr.1, pr.2)))
      | r =>
          -- a fraction or exponent after the integer part is outside the
          -- modelled fragment: reject it rather than misread it
          (parseIntLit r).bind (fun pr =>
            match pr.2 with
            | '.' :: _ => none
            | 'e' :: _ => none
            | 'E' :: _ => none
            | rest => some (.num pr.1, rest))

/-- Parse a non-empty comma-separated list of values followed by `]`. -/
def parseElems : Nat → Str → Option (List Json × Str)
  | 0, _ => none
  | fuel + 1, s =>
      (parseValue fuel s).bind (fun pr =>
        match skipWs pr.2 with
        | ',' :: rest =>
            (parseElems fuel rest).map (fun pr2 => (pr.1 :: pr2.1, pr2.2))
        | ']' :: rest => some ([pr.1], rest)
        | _ => none)

/-- Parse a non-empty comma-separated list of `"key": value` members
followed by `}`. -/
def parseMembers : Nat → Str → Option (List (Str × Json) × Str)
  | 0, _ => none
  | fuel + 1, s =>
      (match skipWs s with
       | '"' :: rest => parseStringBody rest
       | _ => none).bind (fun kpr =>
        match skipWs kpr.2 with
        | ':' :: rest =>
            (parseValue fuel rest).bind (fun vpr =>
              match skipWs vpr.2 with
              | ',' :: rest2 =>
                  (parseMembers fuel rest2).map
                    (fun (mpr : List (Str × Json) × Str) =>
                      ((kpr.1, vpr.1) :: mpr.1, mpr.2))
              | '}' :: rest2 => some ([(kpr.1, vpr.1)], rest2)
              | _ => none)
        | _ => none)

end

/-- Model of `JSON.parse`: the whole input must be one JSON value plus
whitespace. -/
def Json.parse (s : Str) : Option Json :=
  match parseValue (2 * s.length + 4) s with
  | some (j, rest) => if skipWs rest = [] then some j else none
  | none => none

/-- JS property access `o[k]` on a parsed JSON value (`none` models
`undefined`; for duplicate keys the last binding wins, as in JS). -/
def jGet (j : Json) (k : Str) : Option Json :=
  match j with
  | .obj kvs => (kvs.reverse.find? (fun kv => kv.1 = k)).map (fun kv => kv.2)
  | _ => none

/-- JS truthiness of a field read from a parsed JSON object (`none` is
`undefined`). -/
def truthy : Option Json → Bool
  | none => false
  | some .null => false
  | some (.bool b) => b
  | some (.num n) => n != 0
  | some (.str s) => !s.isEmpty
  | some (.arr _) => true
  | some (.obj _) => true

/-!
## Data model

Shallow embedding of the request/response records of
`gigachat.service.ts` (both variants share these shapes).  Numbers that the
source may set to `NaN` (only `cookingTime`, through `parseInt`) are
modelled as `Option Int` with `none` for `NaN`; categories and difficulty
are kept as raw strings because the source casts parsed text into the enum
types without checking.
-/

structure ReqIngredient where
  name : Str
  category : Str
deriving DecidableEq

structure RecipeGenerationRequest where
  userId : Str
  ingredients : List ReqIngredient
  userPrompt : Option Str
  dietaryPreferences : Option (List Str)
  cookingTime : Option Int
deriving DecidableEq

structure RespIngredient where
  name : Str
  quantity : Str
  category : Str
deriving DecidableEq

structure NutritionalInfo where
  calories : Nat
  proteins : Nat
  carbs : Nat
  fats : Nat
  fiber : Nat
deriving DecidableEq

structure Usage where
  prompt_tokens : Int
  completion_tokens : Int
  total_tokens : Int
deriving DecidableEq

/-- The value built by Variant A's `parseRecipeResponse`
(`Omit<RecipeResponse, "id" | "usage" | "created">`). -/
structure ParsedRecipe where
  title : Str
  description : Str
  cookingTime : Option Int
  difficulty : Str
  ingredients : List RespIngredient
  steps : List Str
  nutritionalInfo : NutritionalInfo
  plateAnalysis : Str
  tips : List Str
deriving DecidableEq

structure RecipeResponse where
  id : Str
  title : Str
  description : Str
  cookingTime : Option Int
  difficulty : Str
  ingredients : List RespIngredient
  steps : List Str
  nutritionalInfo : NutritionalInfo
  plateAnalysis : Str
  tips : List Str
  usage : Option Usage
  created : Option Int
deriving DecidableEq

/-!
## Variant A: labeled free-text sections (`part_000`)

Translations of `GigaChatService.extractValue`, `extractSection`,
`parseIngredients`, `parseSteps`, `parseNutritionalInfo`, `parseList`,
`extractNumber` and `parseRecipeResponse`.  Loops
`for (let i = startIndex + 1; ...)` with `break` become recursions over the
list of lines following the found index.
-/

/-- The JS `||` on strings: left operand unless it is falsy (empty). -/
def jsOr (a b : Str) : Str := if a.isEmpty then b else a

/-- `aiText.split("\n").filter((line) => line.trim())`. -/
def linesOf (aiText : Str) : List Str :=
  (aiText.splitOn '\n').filter (fun l => !(trim l).isEmpty)

/-- `extractValue`: first line starting with the label, label removed
(`replace` of its first occurrence), trimmed; `""` when absent. -/
def extractValue (lines : List Str) (pre : Str) : Str :=
  match lines.find? (fun l => pre.isPrefixOf l) with
  | some l => trim (replaceFirst pre [] l)
  | none => []

/-- The test `lines[i].match(/^[А-ЯA-Z ]+:/)` of `extractSection`:
one-or-more characters of the class `[А-ЯA-Z ]` followed by `:`,
anchored at the start of the line. -/
def upperCls (c : Char) : Bool :=
  (0x410 ≤ c.toNat && c.toNat ≤ 0x42F) ||
  (0x41 ≤ c.toNat && c.toNat ≤ 0x5A) || c == ' '

def headerRegexTest (l : Str) : Bool :=
  (matchItems 3 [.plusG upperCls false, .lit ':'] l).isSome

/-- Stop condition of the `extractSection` loop:
`lines[i].trim() === "" || lines[i].match(/^[А-ЯA-Z ]+:/)`. -/
def sectionStop (l : Str) : Bool := (trim l).isEmpty || headerRegexTest l

/-- Loop body of `extractSection`. -/
def sectionLoop : List Str → List Str
  | [] => []
  | l :: rest =>
      if sectionStop l then []
      else trim l :: sectionLoop rest

def extractSection (lines : List Str) (sec : Str) : Str :=
  match lines.findIdx? (fun l => containsSubstr sec l) with
  | none => []
  | some i => joinSep (str "\n") (sectionLoop (lines.drop (i + 1)))

/-- The regex `/•\s*(.+?)\s*-\s*(.+?)\s*-\s*(.+)/` of `parseIngredients`
(`.` is any character but a newline). -/
def dotCls (c : Char) : Bool := c != '\n'

def ingredientRegex : List RItem :=
  [.lit '•', .star wsChar, .plusL dotCls, .star wsChar, .lit '-',
   .star wsChar, .plusL dotCls, .star wsChar, .lit '-', .star wsChar,
   .plusG dotCls true]

/-- Loop body of `parseIngredients`: stop at a blank or bullet-free line;
push a match's three groups (trimmed, category lower-cased); silently skip
bullet lines the regex does not match. -/
def ingrStop (l : Str) : Bool := (trim l).isEmpty || !containsSubstr (str "•") l

def ingrLoop : List Str → List RespIngredient
  | [] => []
  | l :: rest =>
      if ingrStop l then []
      else
        match regexSearch ingredientRegex l with
        | some [n, q, c] =>
            { name := trim n, quantity := trim q,
              category := toLower (trim c) } :: ingrLoop rest
        | _ => ingrLoop rest

def parseIngredients (lines : List Str) : List RespIngredient :=
  match lines.findIdx? (fun l => containsSubstr (str "ИНГРЕДИЕНТЫ:") l) with
  | none => []
  | some i => ingrLoop (lines.drop (i + 1))

/-- `replace(/^\d+\.\s*/, "")` of `parseSteps`: strip a leading digit run
followed by a dot and whitespace (the digit class cannot match `.`, so the
greedy `\d+` is exactly the maximal run and `\s*` the following maximal
whitespace run). -/
def stripNumDot (l : Str) : Str :=
  let ds := l.takeWhile isDigitChar
  if ds.isEmpty then l
  else
    match l.drop ds.length with
    | '.' :: rest => rest.dropWhile wsChar
    | _ => l

/-- Stop condition shared by the `parseSteps` and `parseList` loops:
`lines[i].trim() === "" || lines[i].includes(":")` — note this stops at ANY
line containing a colon, not only at section headers. -/
def colonStop (l : Str) : Bool := (trim l).isEmpty || containsSubstr (str ":") l

/-- Loop body of `parseSteps`: stop at a blank line or at any line that
contains a colon; otherwise strip the numeric prefix, trim, and keep the
result when non-empty. -/
def stepsLoop : List Str → List Str
  | [] => []
  | l :: rest =>
      if colonStop l then []
      else
        if (trim (stripNumDot l)).isEmpty then stepsLoop rest
        else trim (stripNumDot l) :: stepsLoop rest

def parseSteps (lines : List Str) : List Str :=
  match lines.findIdx? (fun l => containsSubstr (str "ШАГИ ПРИГОТОВЛЕНИЯ:") l) with
  | none => []
  | some i => stepsLoop (lines.drop (i + 1))

/-- `extractNumber`: first integer substring of the line, else 0. -/
def numberRegex : List RItem := [.plusG isDigitChar true]

def extractNumber (text : Str) : Nat :=
  match regexSearch numberRegex text with
  | some (d :: _) => digitsToNat d
  | _ => 0

def defaultNutritionalInfo : NutritionalInfo :=
  { calories := 350, proteins := 20, carbs := 40, fats := 15, fiber := 8 }

/-- One iteration of the `parseNutritionalInfo` scan: each label test is an
independent `if`, applied in source order to the same line. -/
def nutriUpdate (l : Str) (info : NutritionalInfo) : NutritionalInfo :=
  let i1 := if containsSubstr (str "Калории:") l then
    { info with calories := extractNumber l } else info
  let i2 := if containsSubstr (str "Белки:") l then
    { i1 with proteins := extractNumber l } else i1
  let i3 := if containsSubstr (str "Углеводы:") l then
    { i2 with carbs := extractNumber l } else i2
  let i4 := if containsSubstr (str "Жиры:") l then
    { i3 with fats := extractNumber l } else i3
  if containsSubstr (str "Клетчатка:") l then
    { i4 with fiber := extractNumber l } else i4

/-- Scan loop of `parseNutritionalInfo`: the window
`for (let i = startIndex + 1; i < startIndex + 6; i++)` becomes iteration
over the (at most five) lines after the header, with the source's break on
a blank line. -/
def nutriLoop : List Str → NutritionalInfo → NutritionalInfo
  | [], info => info
  | l :: rest, info =>
      if (trim l).isEmpty then info
      else nutriLoop rest (nutriUpdate l info)

def parseNutritionalInfo (lines : List Str) : NutritionalInfo :=
  match lines.findIdx? (fun l => containsSubstr (str "ПИТАТЕЛЬНАЯ ЦЕННОСТЬ") l) with
  | none => defaultNutritionalInfo
  | some i => nutriLoop ((lines.drop (i + 1)).take 5) defaultNutritionalInfo

/-- Loop body of `parseList`: stop at a blank line or at any line that
contains a colon; keep only bullet lines, with the first bullet removed and
the result trimmed. -/
def listLoop : List Str → List Str
  | [] => []
  | l :: rest =>
      if colonStop l then []
      else
        if containsSubstr (str "•") l then
          trim (replaceFirst (str "•") [] l) :: listLoop rest
        else listLoop rest

def parseList (lines : List Str) (sec : Str) : List Str :=
  match lines.findIdx? (fun l => containsSubstr sec l) with
  | none => []
  | some i => listLoop (lines.drop (i + 1))

/-- Variant A `parseRecipeResponse`: split into non-blank lines and extract
each field independently, with the source's defaults.  The default title
interpolates `request.ingredients[0]?.name`, which renders as the string
`"undefined"` when the ingredient list is empty, exactly as a JS template
literal does. -/
def parseRecipeResponseA (aiText : Str) (request : RecipeGenerationRequest) :
    ParsedRecipe :=
  let lines := linesOf aiText
  { title := jsOr (extractValue lines (str "НАЗВАНИЕ:"))
      (str "Рецепт с " ++
        (match request.ingredients.head? with
         | some i => i.name
         | none => str "undefined")),
    description := jsOr (extractValue lines (str "ОПИСАНИЕ:"))
      (str "Вкусное и полезное блюдо"),
    cookingTime := jsParseInt
      (jsOr (extractValue lines (str "ВРЕМЯ ПРИГОТОВЛЕНИЯ:")) (str "30")),
    difficulty := jsOr (extractValue lines (str "СЛОЖНОСТЬ:")) (str "medium"),
    ingredients := parseIngredients lines,
    steps := parseSteps lines,
    nutritionalInfo := parseNutritionalInfo lines,
    plateAnalysis := extractSection lines (str "АНАЛИЗ ГАРВАРДСКОЙ ТАРЕЛКИ:"),
    tips := parseList lines (str "СОВЕТЫ И РЕКОМЕНДАЦИИ:") }

/-!
## Variant A: fallback recipe and `generateRecipe` (`part_000`)

`uuidv4()` and `Date.now()` are the only sources of nondeterminism; they are
passed in as explicit parameters (`uuid`, `now`).  The outcome of the
external model call `client.chat(...)` is passed in as
`Except Unit ChatResponse`: `.error` models a rejected call (or a response
shape whose field access throws), which the source catches and answers with
the fallback recipe.
-/

/-- `translateCategory`: fixed dictionary with pass-through default. -/
def translateCategory (category : Str) : Str :=
  if category = str "vegetable" then str "овощи/фрукты"
  else if category = str "grain" then str "зерновые"
  else if category = str "protein" then str "белки"
  else if category = str "fat" then str "полезные жиры"
  else category

/-- `getFallbackRecipe`: deterministic recipe built from the request alone
(plus the fresh `uuidv4()` identifier, passed in as `uuid`). -/
def getFallbackRecipe (request : RecipeGenerationRequest) (uuid : Str) :
    RecipeResponse :=
  let mainIngredients :=
    joinSep (str ", ") (request.ingredients.map (fun i => i.name))
  { id := uuid,
    title := str "Салат \"" ++ mainIngredients ++ str "\"",
    description := str "Свежий и полезный салат на основе ваших ингредиентов",
    cookingTime := some 20,
    difficulty := str "easy",
    ingredients :=
      request.ingredients.map (fun ing =>
        { name := ing.name, quantity := str "по вкусу",
          category := ing.category }) ++
      [{ name := str "Оливковое масло", quantity := str "2 ст.л.",
         category := str "fat" },
       { name := str "Лимонный сок", quantity := str "1 ст.л.",
         category := str "vegetable" }],
    steps :=
      [str "Тщательно промойте все овощи",
       str "Нарежьте ингредиенты удобными кусочками",
       str "Смешайте в большой миске",
       str "Приготовьте заправку из масла и лимонного сока",
       str "Полейте салат заправкой и аккуратно перемешайте",
       str "Подавайте сразу или охладите 10 минут перед подачей"],
    nutritionalInfo :=
      { calories := 250, proteins := 15, carbs := 30, fats := 10, fiber := 12 },
    plateAnalysis :=
      str "Это блюдо соответствует принципам Гарвардской тарелки: основа из свежих овощей, добавлены полезные жиры в виде оливкового масла, сбалансированный вкус и питательность.",
    tips :=
      [str "Можно добаять горсть орехов для хрустящей текстуры",
       str "Для сытости можно добавить отварную киноа или нут",
       str "Подавайте с цельнозерновым хлебом"],
    usage := none,
    created := none }

/-- The parts of the model reply read by Variant A's `generateRecipe`. -/
structure ChatResponse where
  content : Option Str
  rid : Option Str
  usage : Option Usage
  created : Option Int

/-- Variant A `generateRecipe` after the model call: on a successful call
parse `response.choices[0]?.message?.content || ""` and assemble the full
response (`id: response.id || uuidv4()`,
`created: response.created || Date.now()`); any thrown error is caught and
answered with the fallback recipe. -/
def generateRecipeA (request : RecipeGenerationRequest)
    (call : Except Unit ChatResponse) (uuid : Str) (now : Int) :
    RecipeResponse :=
  match call with
  | .error _ => getFallbackRecipe request uuid
  | .ok resp =>
      let aiContent := match resp.content with | some c => c | none => []
      let parsed := parseRecipeResponseA aiContent request
      { id := (match resp.rid with
               | some i => if i.isEmpty then uuid else i
               | none => uuid),
        title := parsed.title,
        description := parsed.description,
        cookingTime := parsed.cookingTime,
        difficulty := parsed.difficulty,
        ingredients := parsed.ingredients,
        steps := parsed.steps,
        nutritionalInfo := parsed.nutritionalInfo,
        plateAnalysis := parsed.plateAnalysis,
        tips := parsed.tips,
        usage := resp.usage,
        created := some (match resp.created with
                         | some c => if c = 0 then now else c
                         | none => now) }

/-- `createUserPrompt` (`part_000`): its local `ingredientsList`. -/
def cupIngredientsList (request : RecipeGenerationRequest) : Str :=
  joinSep (str "\n") (request.ingredients.map (fun ing =>
    str "• " ++ ing.name ++ str " (" ++ translateCategory ing.category ++
      str ")"))

/-- `createUserPrompt`: its local `preferences`. -/
def cupPreferences (request : RecipeGenerationRequest) : Str :=
  match request.dietaryPreferences with
  | some ps =>
      if ps.length ≠ 0 then
        str "\nДиетические предпочтения: " ++ joinSep (str ", ") ps
      else []
  | none => []

/-- `createUserPrompt`: its local `timeConstraint`. -/
def cupTimeConstraint (request : RecipeGenerationRequest) : Str :=
  match request.cookingTime with
  | some t =>
      if t ≠ 0 then
        str "\nЖелаемое время приготовления: не более " ++ intToStr t ++
          str " минут"
      else []
  | none => []

/-- `createUserPrompt`: the interpolation of `request.userPrompt`. -/
def cupUserPromptPart (request : RecipeGenerationRequest) : Str :=
  match request.userPrompt with
  | some u => if !u.isEmpty then str "\nДополнительные пожелания: " ++ u else []
  | none => []

/-- `createUserPrompt` (`part_000`): the user prompt template. -/
def createUserPrompt (request : RecipeGenerationRequest) : Str :=
  str "Пожалуйста, создай рецепт на основе следующих ингредиентов:\n\nОсновные ингредиенты:\n" ++
    cupIngredientsList request ++ str "\n" ++ cupPreferences request ++
    str "\n" ++ cupTimeConstraint request ++
    str "\n" ++ cupUserPromptPart request ++
    str "\n\nИспользуй ВСЕ указанные ингредиенты. Можешь добавить базовые продукты (соль, перец, масло, вода), если это необходимо для рецепта.\n\nСоздай практичный, вкусный и полезный рецепт!"

/-!
## Variant B: strict JSON (`part_001`)

`extractJson`, `parseRecipeResponse` and `buildPrompt`.  The three `throw`
sites become the three `ParseErr` constructors; the source returns the
parsed JSON object itself (a bare cast, no conversion), so the model
returns the parsed `Json` value.
-/

inductive ParseErr where
  | noJson : ParseErr
  | badJson : ParseErr
  | badFields : ParseErr
deriving DecidableEq

/-- `content.indexOf("{")` as an optional index. -/
def firstBraceIdx (content : Str) : Option Nat :=
  content.findIdx? (fun c => c == '{')

/-- `content.lastIndexOf("}")` as an optional index. -/
def lastBraceIdx (content : Str) : Option Nat :=
  (content.reverse.findIdx? (fun c => c == '}')).map
    (fun i => content.length - 1 - i)

/-- `extractJson`: slice from the first `{` to the last `}` inclusive;
error when either brace is missing or the last `}` is not after the
first `{`. -/
def extractJson (content : Str) : Except ParseErr Str :=
  match firstBraceIdx content, lastBraceIdx content with
  | some f, some l =>
      if l ≤ f then .error .noJson
      else .ok ((content.drop f).take (l + 1 - f))
  | _, _ => .error .noJson

/-- Variant B `parseRecipeResponse`: extract, `JSON.parse`, then reject a
falsy `title`, `ingredients` or `steps` field; on success the parsed object
is returned verbatim. -/
def parseRecipeResponseB (content : Str) : Except ParseErr Json :=
  match extractJson content with
  | .error e => .error e
  | .ok js =>
      match Json.parse js with
      | none => .error .badJson
      | some parsed =>
          if !truthy (jGet parsed (str "title")) ||
             !truthy (jGet parsed (str "ingredients")) ||
             !truthy (jGet parsed (str "steps")) then .error .badFields
          else .ok parsed

/-- The JSON object delivered by extraction plus `JSON.parse`, ignoring the
required-field check (used to state when fields are present). -/
def jsonOfContent (content : Str) : Option Json :=
  match extractJson content with
  | .ok js => Json.parse js
  | .error _ => none

/-- `buildPrompt` (`part_001`): its local `ingredients`. -/
def bpIngredients (request : RecipeGenerationRequest) : Str :=
  joinSep (str "\n") (request.ingredients.map (fun i =>
    str "- " ++ i.name ++ str " (" ++ i.category ++ str ")"))

/-- `buildPrompt`: its local `preferences`. -/
def bpPreferences (request : RecipeGenerationRequest) : Str :=
  match request.dietaryPreferences with
  | some ps => if ps.length ≠ 0 then joinSep (str ", ") ps else str "нет"
  | none => str "нет"

/-- `buildPrompt`: its local `cookingTime`. -/
def bpCookingTime (request : RecipeGenerationRequest) : Str :=
  match request.cookingTime with
  | some t => if t ≠ 0 then intToStr t ++ str " минут" else str "не указано"
  | none => str "не указано"

/-- `buildPrompt`: its local `userPrompt`. -/
def bpUserPrompt (request : RecipeGenerationRequest) : Str :=
  match request.userPrompt with
  | some u => if !u.isEmpty then u else str "нет"
  | none => str "нет"

/-- `buildPrompt` (`part_001`). -/
def buildPrompt (request : RecipeGenerationRequest) : Str :=
  joinSep (str "\n")
    [str "Сгенерируй один рецепт с учётом списка ингредиентов и принципов Гарвардской тарелки.",
     str "Требования:",
     str "- Ответ строго в JSON без Markdown.",
     str "- Используй все ингредиенты, если возможно.",
     str "- Категории ингредиентов только: vegetable, grain, protein, fat.",
     str "- Поля JSON: title, description, cookingTime (число), difficulty (easy|medium|hard), ingredients (массив), steps (массив), nutritionalInfo, plateAnalysis, tips.",
     str "- В ingredients каждый элемент: name, quantity, category.",
     str "- В nutritionalInfo: calories, proteins, carbs, fats, fiber (числа).",
     str "",
     str "Ингредиенты:\n" ++ bpIngredients request,
     str "Пожелания пользователя: " ++ bpUserPrompt request,
     str "Диетические предпочтения: " ++ bpPreferences request,
     str "Время приготовления: " ++ bpCookingTime request]

/-!
## Auxiliary definitions for the statements

Concrete fixtures used by counterexamples and witnesses, and small
definitions used to phrase the properties.
-/

/-- First maximal run of digits in a string (specification of what
`match(/\d+/)` finds). -/
def firstDigitRun : Str → Option Str
  | [] => none
  | c :: r =>
      if isDigitChar c then some ((c :: r).takeWhile isDigitChar)
      else firstDigitRun r

/-- A recipe response with its identifier field blanked, to compare
responses up to the embedded identifier. -/
def eraseId (r : RecipeResponse) : RecipeResponse := { r with id := [] }

/-- Request with a single ingredient `Tomato`, `cookingTime: 20`
(the request of the end-to-end scenario). -/
def tomatoReq : RecipeGenerationRequest :=
  { userId := [],
    ingredients := [{ name := str "Tomato", category := str "vegetable" }],
    userPrompt := none, dietaryPreferences := none, cookingTime := some 20 }

/-- Request with one ingredient `Огурец` (used by a counterexample). -/
def cucumberReq : RecipeGenerationRequest :=
  { userId := [],
    ingredients := [{ name := str "Огурец", category := str "vegetable" }],
    userPrompt := none, dietaryPreferences := none, cookingTime := none }

/-- Valid request (2 ingredients, both names non-empty) in which the same
ingredient name occurs twice. -/
def dupReq : RecipeGenerationRequest :=
  { userId := [],
    ingredients := [{ name := str "Tomato", category := str "vegetable" },
                    { name := str "Tomato", category := str "vegetable" }],
    userPrompt := none, dietaryPreferences := none, cookingTime := none }

/-- A model reply whose content is the empty string. -/
def emptyResp : ChatResponse :=
  { content := some [], rid := none, usage := none, created := none }


/-!
## Helper lemmas
-/

/-- `jsOr` never yields the empty string when its default is non-empty. -/
theorem jsOr_ne_nil (a b : Str) (hb : b ≠ []) : jsOr a b ≠ [] := by
  unfold jsOr
  cases ha : a.isEmpty with
  | true => simpa [ha]
  | false => simp only [ha, Bool.false_eq_true, if_false]
             simpa [List.isEmpty_iff] using ha

/-- The loop of `parseSteps` consumes exactly the lines before the first
line that is blank or contains a colon, keeping the non-empty
stripped-and-trimmed residues. -/
theorem stepsLoop_eq_takeWhile (ls : List Str) :
    stepsLoop ls =
      (ls.takeWhile (fun l => !colonStop l)).filterMap
        (fun l =>
          if (trim (stripNumDot l)).isEmpty then none
          else some (trim (stripNumDot l))) := by
  induction ls with
  | nil => rfl
  | cons l rest ih =>
      cases hc : colonStop l with
      | true => simp [stepsLoop, hc, List.takeWhile_cons]
      | false =>
          cases hs : (trim (stripNumDot l)).isEmpty with
          | true =>
              have hs2 : trim (stripNumDot l) = [] := List.isEmpty_iff.mp hs
              simp [stepsLoop, hc, hs, hs2, List.takeWhile_cons,
                List.filterMap_cons, ih]
          | false =>
              have hs2 : ¬ trim (stripNumDot l) = [] := by
                simpa [List.isEmpty_iff] using hs
              simp [stepsLoop, hc, hs, hs2, List.takeWhile_cons,
                List.filterMap_cons, ih]

/-- The loop of `parseList` consumes exactly the lines before the first
line that is blank or contains a colon, keeping the de-bulleted trimmed
bullet lines. -/
theorem listLoop_eq_takeWhile (ls : List Str) :
    listLoop ls =
      (ls.takeWhile (fun l => !colonStop l)).filterMap
        (fun l =>
          if containsSubstr (str "•") l then
            some (trim (replaceFirst (str "•") [] l))
          else none) := by
  induction ls with
  | nil => rfl
  | cons l rest ih =>
      cases hc : colonStop l with
      | true => simp [listLoop, hc, List.takeWhile_cons]
      | false =>
          cases hb : containsSubstr (str "•") l with
          | true =>
              simp [listLoop, hc, hb, List.takeWhile_cons,
                List.filterMap_cons, ih]
          | false =>
              simp [listLoop, hc, hb, List.takeWhile_cons,
                List.filterMap_cons, ih]

/-- The loop of `extractSection` consumes exactly the lines before the
first line that is blank or matches the header pattern `/^[А-ЯA-Z ]+:/`,
trimming each kept line. -/
theorem sectionLoop_eq_takeWhile (ls : List Str) :
    sectionLoop ls =
      (ls.takeWhile (fun l => !sectionStop l)).map trim := by
  induction ls with
  | nil => rfl
  | cons l rest ih =>
      cases hc : sectionStop l with
      | true => simp [sectionLoop, hc, List.takeWhile_cons]
      | false => simp [sectionLoop, hc, List.takeWhile_cons, ih]

/-- `nutriUpdate` leaves `calories` unchanged on a line without its label. -/
theorem nutriUpdate_calories (l : Str) (info : NutritionalInfo)
    (h : containsSubstr (str "Калории:") l = false) :
    (nutriUpdate l info).calories = info.calories := by
  simp [nutriUpdate, h, apply_ite NutritionalInfo.calories]

/-- `nutriUpdate` leaves `proteins` unchanged on a line without its label. -/
theorem nutriUpdate_proteins (l : Str) (info : NutritionalInfo)
    (h : containsSubstr (str "Белки:") l = false) :
    (nutriUpdate l info).proteins = info.proteins := by
  simp [nutriUpdate, h, apply_ite NutritionalInfo.proteins]

/-- `nutriUpdate` leaves `carbs` unchanged on a line without its label. -/
theorem nutriUpdate_carbs (l : Str) (info : NutritionalInfo)
    (h : containsSubstr (str "Углеводы:") l = false) :
    (nutriUpdate l info).carbs = info.carbs := by
  simp [nutriUpdate, h, apply_ite NutritionalInfo.carbs]

/-- `nutriUpdate` leaves `fats` unchanged on a line without its label. -/
theorem nutriUpdate_fats (l : Str) (info : NutritionalInfo)
    (h : containsSubstr (str "Жиры:") l = false) :
    (nutriUpdate l info).fats = info.fats := by
  simp [nutriUpdate, h, apply_ite NutritionalInfo.fats]

/-- `nutriUpdate` leaves `fiber` unchanged on a line without its label. -/
theorem nutriUpdate_fiber (l : Str) (info : NutritionalInfo)
    (h : containsSubstr (str "Клетчатка:") l = false) :
    (nutriUpdate l info).fiber = info.fiber := by
  simp [nutriUpdate, h, apply_ite NutritionalInfo.fiber]

/-- A field of the nutrition record survives the scan loop when its label
occurs in none of the scanned lines. -/
theorem nutriLoop_preserve (proj : NutritionalInfo → Nat) (p : Str → Bool)
    (hupd : ∀ l info, p l = false → proj (nutriUpdate l info) = proj info)
    (ws : List Str) :
    ∀ info : NutritionalInfo,
      (∀ l ∈ ws, p l = false) → proj (nutriLoop ws info) = proj info := by
  induction ws with
  | nil => intro info _; rfl
  | cons l rest ih =>
      intro info hall
      cases hb : (trim l).isEmpty with
      | true => simp [nutriLoop, hb]
      | false =>
          rw [nutriLoop, if_neg (by simp [hb]),
            ih (nutriUpdate l info) (fun x hx => hall x (List.mem_cons_of_mem l hx)),
            hupd l info (hall l (List.mem_cons_self l rest))]

/-- Evaluation of the `\d+` matcher at the head position: it finds exactly
the maximal leading digit run, if non-empty. -/
theorem matchItems_number (s : Str) :
    matchItems 2 numberRegex s =
      if (s.takeWhile isDigitChar).isEmpty then none
      else some [s.takeWhile isDigitChar] := by
  cases hm : (s.takeWhile isDigitChar).length with
  | zero =>
      have he : (s.takeWhile isDigitChar).isEmpty = true := by
        rw [List.isEmpty_iff]
        exact List.length_eq_zero.mp hm
      simp [matchItems, numberRegex, hm, descRange1, firstSome, he]
  | succ m =>
      have hpre : s.takeWhile isDigitChar <+: s :=
        ⟨s.dropWhile isDigitChar, List.takeWhile_append_dropWhile isDigitChar s⟩
      have htake : s.take (m + 1) = s.takeWhile isDigitChar := by
        rw [← hm]
        exact (List.prefix_iff_eq_take.mp hpre).symm
      have he : (s.takeWhile isDigitChar).isEmpty = false := by
        cases hq : s.takeWhile isDigitChar with
        | nil => rw [hq] at hm; cases hm
        | cons a t => rfl
      simp [matchItems, numberRegex, hm, descRange1, firstSome, he, htake]

/-- `match(/\d+/)` finds the first maximal digit run of the string. -/
theorem regexSearch_number (s : Str) :
    regexSearch numberRegex s = (firstDigitRun s).map (fun d => [d]) := by
  show firstSome (matchItems 2 numberRegex) s.tails = _
  induction s with
  | nil => rfl
  | cons c r ih =>
      have htails : (c :: r).tails = (c :: r) :: r.tails := by
        simp [List.tails]
      rw [htails]
      cases hd : isDigitChar c with
      | true =>
          have : ((c :: r).takeWhile isDigitChar).isEmpty = false := by
            simp [List.takeWhile_cons, hd]
          simp [firstSome, matchItems_number, this, firstDigitRun, hd]
      | false =>
          have : ((c :: r).takeWhile isDigitChar).isEmpty = true := by
            simp [List.takeWhile_cons, hd]
          simp only [firstSome, matchItems_number, this, if_true]
          rw [ih]
          simp [firstDigitRun, hd]

/-- `extractNumber` returns the value of the first digit run, or 0. -/
theorem extractNumber_eq_firstDigitRun (text : Str) :
    extractNumber text = (firstDigitRun text).elim 0 digitsToNat := by
  unfold extractNumber
  rw [regexSearch_number]
  cases firstDigitRun text <;> rfl

/-- Every element of a joined list is a contiguous substring of the join. -/
theorem infix_of_mem_joinSep (sep : Str) (xs : List Str) (x : Str)
    (hx : x ∈ xs) : x <:+: joinSep sep xs := by
  induction xs with
  | nil => cases hx
  | cons a t ih =>
      cases t with
      | nil =>
          have : x = a := List.mem_singleton.mp hx
          subst this
          exact List.infix_refl x
      | cons b r =>
          rcases List.mem_cons.mp hx with rfl | hmem
          · exact ⟨[], sep ++ joinSep sep (b :: r), by
              simp [joinSep, List.append_assoc]⟩
          · exact ((ih hmem).trans
              (List.suffix_append (a ++ sep) (joinSep sep (b :: r))).isInfix)

/-- A contiguous substring occurs at least once. -/
theorem one_le_occCount_of_infix (pat l : Str) (h : pat <:+: l) :
    1 ≤ occCount pat l := by
  induction l with
  | nil =>
      have : pat = [] := List.infix_nil.mp h
      subst this
      decide
  | cons c r ih =>
      rcases List.infix_cons_iff.mp h with hp | hs
      · have hb : pat.isPrefixOf (c :: r) = true :=
          List.isPrefixOf_iff_prefix.mpr hp
        simp [occCount, hb]
      · have h1 := ih hs
        simp only [occCount]
        split <;> omega

/-!
## Claim theorems
-/

/-- C1 (counterexample): with the model call succeeding but returning the
empty string, Variant A delivers a response with EMPTY ingredients and
steps to the caller — it is not the fallback recipe (whose steps are
non-empty), refuting the claimed invariant that every delivered
`RecipeResponse` has non-empty ingredients and steps. -/
theorem c1_delivery_invariant_counterexample :
    (generateRecipeA tomatoReq (Except.ok emptyResp) [] 0).steps = [] ∧
    (generateRecipeA tomatoReq (Except.ok emptyResp) [] 0).ingredients = [] ∧
    (getFallbackRecipe tomatoReq []).steps ≠ [] := by
  refine ⟨by decide, by decide, by decide⟩

/-- C1 (amended): every delivered response has a non-empty title, and the
fallback recipe (which itself has non-empty title, ingredients and steps)
is substituted exactly when the model call throws — never for a parse
shortfall: Variant A parsing is total, and a Variant B parse success always
carries a truthy `title` field. -/
theorem c1_delivery_invariant_amended :
    ∀ (text : Str) (req : RecipeGenerationRequest) (u : Str),
      (parseRecipeResponseA text req).title ≠ [] ∧
      ((getFallbackRecipe req u).title ≠ [] ∧
       (getFallbackRecipe req u).ingredients ≠ [] ∧
       (getFallbackRecipe req u).steps ≠ []) ∧
      (∀ now : Int,
        generateRecipeA req (Except.error ()) u now = getFallbackRecipe req u) ∧
      (∀ (content : Str) (j : Json),
        parseRecipeResponseB content = Except.ok j →
          truthy (jGet j (str "title")) = true) := by
  intro text req u
  refine ⟨?_, ⟨?_, ?_, ?_⟩, fun now => rfl, ?_⟩
  · simp only [parseRecipeResponseA]
    apply jsOr_ne_nil
    intro h
    exact absurd (List.append_eq_nil.mp h).1 (by decide)
  · simp only [getFallbackRecipe]
    intro h
    have h2 : str "Салат \"" ++
        joinSep (str ", ") (req.ingredients.map (fun i => i.name)) = [] :=
      (List.append_eq_nil.mp h).1
    exact absurd (List.append_eq_nil.mp h2).1 (by decide)
  · simp only [getFallbackRecipe]
    intro h
    simpa using (List.append_eq_nil.mp h).2
  · simp only [getFallbackRecipe]
    intro h
    cases h
  · intro content j h
    unfold parseRecipeResponseB at h
    split at h
    · exact Except.noConfusion h
    · split at h
      · exact Except.noConfusion h
      · split at h
        · exact Except.noConfusion h
        · next hcond =>
            injection h with h2
            subst h2
            simp at hcond
            exact hcond.1.1

/-- Witness for C1: the hypothesis-bearing Variant B conjunct discharged at
a concrete parse success. -/
theorem c1_delivery_invariant_amended_witness :
    truthy (jGet (Json.obj
      [(str "title", Json.str (str "T")),
       (str "ingredients", Json.arr [Json.num 1]),
       (str "steps", Json.arr [Json.num 1])]) (str "title")) = true :=
  (c1_delivery_invariant_amended [] tomatoReq []).2.2.2
    (str "\x7b\"title\":\"T\",\"ingredients\":[1],\"steps\":[1]\x7d")
    (Json.obj
      [(str "title", Json.str (str "T")),
       (str "ingredients", Json.arr [Json.num 1]),
       (str "steps", Json.arr [Json.num 1])])
    (by rfl)

/-- C2 (counterexample): on the empty input the Variant A parser's steps
list is EMPTY — the defaulting list for steps is `[]`, not a non-empty
list as claimed. -/
theorem c2_variant_a_total_counterexample :
    (parseRecipeResponseA (str "") cucumberReq).steps = [] ∧
    (parseRecipeResponseA (str "") cucumberReq).title ≠ [] := by
  refine ⟨by decide, by decide⟩

/-- C2 (amended): the Variant A parser is total: on every input it returns
a complete body whose title is non-empty; when the steps header is absent
the steps list defaults to the EMPTY list; and each nutrition field whose
label occurs nowhere in the text keeps its default
(350/20/40/15/8 respectively). -/
theorem c2_variant_a_total_defaults :
    ∀ (text : Str) (req : RecipeGenerationRequest),
      (parseRecipeResponseA text req).title ≠ [] ∧
      ((∀ l ∈ linesOf text,
          containsSubstr (str "ШАГИ ПРИГОТОВЛЕНИЯ:") l = false) →
        (parseRecipeResponseA text req).steps = []) ∧
      ((∀ l ∈ linesOf text, containsSubstr (str "Калории:") l = false) →
        (parseRecipeResponseA text req).nutritionalInfo.calories = 350) ∧
      ((∀ l ∈ linesOf text, containsSubstr (str "Белки:") l = false) →
        (parseRecipeResponseA text req).nutritionalInfo.proteins = 20) ∧
      ((∀ l ∈ linesOf text, containsSubstr (str "Углеводы:") l = false) →
        (parseRecipeResponseA text req).nutritionalInfo.carbs = 40) ∧
      ((∀ l ∈ linesOf text, containsSubstr (str "Жиры:") l = false) →
        (parseRecipeResponseA text req).nutritionalInfo.fats = 15) ∧
      ((∀ l ∈ linesOf text, containsSubstr (str "Клетчатка:") l = false) →
        (parseRecipeResponseA text req).nutritionalInfo.fiber = 8) := by
  intro text req
  refine ⟨?_, ?_, ?_, ?_, ?_, ?_, ?_⟩
  · simp only [parseRecipeResponseA]
    apply jsOr_ne_nil
    intro h
    exact absurd (List.append_eq_nil.mp h).1 (by decide)
  · intro hall
    have hidx : (linesOf text).findIdx?
        (fun l => containsSubstr (str "ШАГИ ПРИГОТОВЛЕНИЯ:") l) = none :=
      List.findIdx?_eq_none_iff.mpr hall
    simp only [parseRecipeResponseA]
    unfold parseSteps
    rw [hidx]
  · intro hall
    simp only [parseRecipeResponseA]
    unfold parseNutritionalInfo
    cases hidx : (linesOf text).findIdx?
        (fun l => containsSubstr (str "ПИТАТЕЛЬНАЯ ЦЕННОСТЬ") l) with
    | none => rfl
    | some i =>
        exact nutriLoop_preserve NutritionalInfo.calories
          (containsSubstr (str "Калории:")) nutriUpdate_calories _ _
          (fun l hl =>
            hall l (List.mem_of_mem_drop (List.mem_of_mem_take hl)))
  · intro hall
    simp only [parseRecipeResponseA]
    unfold parseNutritionalInfo
    cases hidx : (linesOf text).findIdx?
        (fun l => containsSubstr (str "ПИТАТЕЛЬНАЯ ЦЕННОСТЬ") l) with
    | none => rfl
    | some i =>
        exact nutriLoop_preserve NutritionalInfo.proteins
          (containsSubstr (str "Белки:")) nutriUpdate_proteins _ _
          (fun l hl =>
            hall l (List.mem_of_mem_drop (List.mem_of_mem_take hl)))
  · intro hall
    simp only [parseRecipeResponseA]
    unfold parseNutritionalInfo
    cases hidx : (linesOf text).findIdx?
        (fun l => containsSubstr (str "ПИТАТЕЛЬНАЯ ЦЕННОСТЬ") l) with
    | none => rfl
    | some i =>
        exact nutriLoop_preserve NutritionalInfo.carbs
          (containsSubstr (str "Углеводы:")) nutriUpdate_carbs _ _
          (fun l hl =>
            hall l (List.mem_of_mem_drop (List.mem_of_mem_take hl)))
  · intro hall
    simp only [parseRecipeResponseA]
    unfold parseNutritionalInfo
    cases hidx : (linesOf text).findIdx?
        (fun l => containsSubstr (str "ПИТАТЕЛЬНАЯ ЦЕННОСТЬ") l) with
    | none => rfl
    | some i =>
        exact nutriLoop_preserve NutritionalInfo.fats
          (containsSubstr (str "Жиры:")) nutriUpdate_fats _ _
          (fun l hl =>
            hall l (List.mem_of_mem_drop (List.mem_of_mem_take hl)))
  · intro hall
    simp only [parseRecipeResponseA]
    unfold parseNutritionalInfo
    cases hidx : (linesOf text).findIdx?
        (fun l => containsSubstr (str "ПИТАТЕЛЬНАЯ ЦЕННОСТЬ") l) with
    | none => rfl
    | some i =>
        exact nutriLoop_preserve NutritionalInfo.fiber
          (containsSubstr (str "Клетчатка:")) nutriUpdate_fiber _ _
          (fun l hl =>
            hall l (List.mem_of_mem_drop (List.mem_of_mem_take hl)))

/-- Witness for C2: all hypotheses discharged on a concrete text with none
of the labels present. -/
theorem c2_variant_a_total_defaults_witness :
    (parseRecipeResponseA (str "Привет") tomatoReq).steps = [] ∧
    (parseRecipeResponseA (str "Привет") tomatoReq).nutritionalInfo.calories = 350 ∧
    (parseRecipeResponseA (str "Привет") tomatoReq).nutritionalInfo.proteins = 20 ∧
    (parseRecipeResponseA (str "Привет") tomatoReq).nutritionalInfo.carbs = 40 ∧
    (parseRecipeResponseA (str "Привет") tomatoReq).nutritionalInfo.fats = 15 ∧
    (parseRecipeResponseA (str "Привет") tomatoReq).nutritionalInfo.fiber = 8 :=
  ⟨(c2_variant_a_total_defaults (str "Привет") tomatoReq).2.1 (by decide),
   (c2_variant_a_total_defaults (str "Привет") tomatoReq).2.2.1 (by decide),
   (c2_variant_a_total_defaults (str "Привет") tomatoReq).2.2.2.1 (by decide),
   (c2_variant_a_total_defaults (str "Привет") tomatoReq).2.2.2.2.1 (by decide),
   (c2_variant_a_total_defaults (str "Привет") tomatoReq).2.2.2.2.2.1 (by decide),
   (c2_variant_a_total_defaults (str "Привет") tomatoReq).2.2.2.2.2.2 (by decide)⟩

/-- C4: end-to-end scenario: for the request with single ingredient
`Tomato` and `cookingTime: 20`, a successful model call returning the empty
string yields (for any fresh identifier and clock value) the default title
built from the first ingredient name (source template `Рецепт с ...`,
rendered "Recipe with ..." in the specification), `cookingTime` 30 (the
parse default — NOT the request's 20), difficulty `medium`, empty
ingredients/steps/tips, and the default nutrition block. -/
theorem c4_end_to_end_scenario :
    ∀ (u : Str) (now : Int),
      (generateRecipeA tomatoReq (Except.ok emptyResp) u now).title =
        str "Рецепт с Tomato" ∧
      (generateRecipeA tomatoReq (Except.ok emptyResp) u now).cookingTime =
        some 30 ∧
      (generateRecipeA tomatoReq (Except.ok emptyResp) u now).difficulty =
        str "medium" ∧
      (generateRecipeA tomatoReq (Except.ok emptyResp) u now).ingredients = [] ∧
      (generateRecipeA tomatoReq (Except.ok emptyResp) u now).steps = [] ∧
      (generateRecipeA tomatoReq (Except.ok emptyResp) u now).tips = [] ∧
      (generateRecipeA tomatoReq (Except.ok emptyResp) u now).nutritionalInfo =
        defaultNutritionalInfo := by
  intro u now
  exact ⟨rfl, rfl, rfl, rfl, rfl, rfl, rfl⟩

/-- C6: the fallback recipe is a deterministic, model-free function of the
request: apart from the embedded identifier (the explicit `uuid`
parameter, the only nondeterministic input), two constructions from the
same request agree in every field. -/
theorem c6_fallback_deterministic :
    ∀ (req : RecipeGenerationRequest) (u1 u2 : Str),
      eraseId (getFallbackRecipe req u1) = eraseId (getFallbackRecipe req u2) :=
  fun _ _ _ => rfl

/-- C7 (counterexample): steps consumption stops at `2. Варить 5:30 минут`
— a line that is neither blank nor a recognized section header (it fails
the header pattern `/^[А-ЯA-Z ]+:/`), merely containing a colon; and a
blank line does NOT terminate a section (blank lines are filtered out
before parsing), refuting the claimed blank-line/next-header boundary
policy. -/
theorem c7_section_boundaries_counterexample :
    parseSteps (linesOf
      (str "ШАГИ ПРИГОТОВЛЕНИЯ:\n1. Нарезать овощи\n2. Варить 5:30 минут\n3. Подавать")) =
      [str "Нарезать овощи"] ∧
    headerRegexTest (str "2. Варить 5:30 минут") = false ∧
    (trim (str "2. Варить 5:30 минут")).isEmpty = false ∧
    parseSteps (linesOf (str "ШАГИ ПРИГОТОВЛЕНИЯ:\nНарезать\n\nПодавать")) =
      [str "Нарезать", str "Подавать"] := by
  refine ⟨by decide, by decide, by decide, by decide⟩

/-- C7 (amended): after its header, each list section consumes exactly the
lines up to (and not including) the first stopping line — for steps and
tips any line that is blank or contains a colon anywhere (`colonStop`),
for plateAnalysis any line that is blank or matches `/^[А-ЯA-Z ]+:/`
(`sectionStop`) — and nothing else stops consumption; blank lines never
occur because the line list is pre-filtered. -/
theorem c7_section_boundaries_amended :
    ∀ (lines : List Str) (sec : Str),
      (parseSteps lines =
        match lines.findIdx?
            (fun l => containsSubstr (str "ШАГИ ПРИГОТОВЛЕНИЯ:") l) with
        | none => []
        | some i =>
            ((lines.drop (i + 1)).takeWhile (fun l => !colonStop l)).filterMap
              (fun l =>
                if (trim (stripNumDot l)).isEmpty then none
                else some (trim (stripNumDot l)))) ∧
      (parseList lines sec =
        match lines.findIdx? (fun l => containsSubstr sec l) with
        | none => []
        | some i =>
            ((lines.drop (i + 1)).takeWhile (fun l => !colonStop l)).filterMap
              (fun l =>
                if containsSubstr (str "•") l then
                  some (trim (replaceFirst (str "•") [] l))
                else none)) ∧
      (extractSection lines sec =
        match lines.findIdx? (fun l => containsSubstr sec l) with
        | none => []
        | some i =>
            joinSep (str "\n")
              (((lines.drop (i + 1)).takeWhile (fun l => !sectionStop l)).map
                trim)) := by
  intro lines sec
  refine ⟨?_, ?_, ?_⟩
  · cases hidx : lines.findIdx?
        (fun l => containsSubstr (str "ШАГИ ПРИГОТОВЛЕНИЯ:") l) with
    | none => simp [parseSteps, hidx]
    | some i => simp [parseSteps, hidx, stepsLoop_eq_takeWhile]
  · cases hidx : lines.findIdx? (fun l => containsSubstr sec l) with
    | none => simp [parseList, hidx]
    | some i => simp [parseList, hidx, listLoop_eq_takeWhile]
  · cases hidx : lines.findIdx? (fun l => containsSubstr sec l) with
    | none => simp [extractSection, hidx]
    | some i => simp [extractSection, hidx, sectionLoop_eq_takeWhile]

/-- On a successful extraction, `jsonOfContent` is the JSON parse of the
extracted substring. -/
theorem jsonOfContent_ok (content js : Str)
    (h : extractJson content = Except.ok js) :
    jsonOfContent content = Json.parse js := by
  unfold jsonOfContent
  split
  · next js2 heq2 =>
      rw [h] at heq2
      injection heq2 with e
      rw [e]
  · next e heq2 =>
      rw [h] at heq2
      exact Except.noConfusion heq2

/-- C3 (counterexample): a JSON object in which `title`, `ingredients` and
`steps` are all PRESENT — but `title` is the empty string, a falsy value —
still makes Variant B fail; so "fails exactly when ... a required field is
absent" is wrong: the check also rejects present-but-falsy fields. -/
theorem c3_variant_b_error_counterexample :
    parseRecipeResponseB
      (str "\x7b\"title\":\"\",\"ingredients\":[1],\"steps\":[1]\x7d") =
      Except.error ParseErr.badFields ∧
    jsonOfContent
      (str "\x7b\"title\":\"\",\"ingredients\":[1],\"steps\":[1]\x7d") =
      some (Json.obj
        [(str "title", Json.str []),
         (str "ingredients", Json.arr [Json.num 1]),
         (str "steps", Json.arr [Json.num 1])]) ∧
    (jGet (Json.obj
        [(str "title", Json.str []),
         (str "ingredients", Json.arr [Json.num 1]),
         (str "steps", Json.arr [Json.num 1])]) (str "title")).isSome = true ∧
    (jGet (Json.obj
        [(str "title", Json.str []),
         (str "ingredients", Json.arr [Json.num 1]),
         (str "steps", Json.arr [Json.num 1])]) (str "ingredients")).isSome =
      true ∧
    (jGet (Json.obj
        [(str "title", Json.str []),
         (str "ingredients", Json.arr [Json.num 1]),
         (str "steps", Json.arr [Json.num 1])]) (str "steps")).isSome = true :=
  ⟨rfl, rfl, rfl, rfl, rfl⟩

/-- Evaluation of Variant B when extraction fails. -/
theorem parseB_eq_of_extract_error (content : Str) (e : ParseErr)
    (h : extractJson content = Except.error e) :
    parseRecipeResponseB content = Except.error e := by
  unfold parseRecipeResponseB
  split
  · next e2 heq =>
      rw [h] at heq
      injection heq with h2
      rw [h2]
  · next js heq =>
      rw [h] at heq
      exact Except.noConfusion heq

/-- Evaluation of Variant B after a successful extraction. -/
theorem parseB_eq_of_extract_ok (content js : Str)
    (h : extractJson content = Except.ok js) :
    parseRecipeResponseB content =
      (match Json.parse js with
       | none => Except.error ParseErr.badJson
       | some parsed =>
           if !truthy (jGet parsed (str "title")) ||
              !truthy (jGet parsed (str "ingredients")) ||
              !truthy (jGet parsed (str "steps")) then
             Except.error ParseErr.badFields
           else Except.ok parsed) := by
  unfold parseRecipeResponseB
  split
  · next e heq =>
      rw [h] at heq
      exact Except.noConfusion heq
  · next js2 heq =>
      rw [h] at heq
      injection heq with h2
      rw [h2]

/-- Evaluation of Variant B when the extracted substring fails to parse. -/
theorem parseB_eq_badJson (content js : Str)
    (h1 : extractJson content = Except.ok js) (h2 : Json.parse js = none) :
    parseRecipeResponseB content = Except.error ParseErr.badJson := by
  rw [parseB_eq_of_extract_ok content js h1, h2]

/-- Evaluation of Variant B when the extracted substring parses. -/
theorem parseB_eq_of_parsed (content js : Str) (parsed : Json)
    (h1 : extractJson content = Except.ok js)
    (h2 : Json.parse js = some parsed) :
    parseRecipeResponseB content =
      (if !truthy (jGet parsed (str "title")) ||
          !truthy (jGet parsed (str "ingredients")) ||
          !truthy (jGet parsed (str "steps")) then
        Except.error ParseErr.badFields
      else Except.ok parsed) := by
  rw [parseB_eq_of_extract_ok content js h1, h2]

/-- C3 (amended): Variant B fails exactly when the brace-delimited
substring does not exist, or JSON parsing fails, or a required field
(`title`, `ingredients`, `steps`) is absent OR falsy; the text
`"no json here"` fails; and on success the result is the parsed JSON
object itself, verbatim. -/
theorem c3_variant_b_failure_characterization :
    ∀ content : Str,
      ((parseRecipeResponseB content).isOk = false ↔
        ((extractJson content).isOk = false ∨
         (∃ js, extractJson content = Except.ok js ∧ Json.parse js = none) ∨
         (∃ j, jsonOfContent content = some j ∧
           (truthy (jGet j (str "title")) = false ∨
            truthy (jGet j (str "ingredients")) = false ∨
            truthy (jGet j (str "steps")) = false)))) ∧
      parseRecipeResponseB (str "no json here") =
        Except.error ParseErr.noJson ∧
      (∀ j, parseRecipeResponseB content = Except.ok j →
        jsonOfContent content = some j) := by
  intro content
  refine ⟨?_, rfl, ?_⟩
  · cases hex : extractJson content with
    | error e =>
        rw [parseB_eq_of_extract_error content e hex]
        apply iff_of_true rfl
        left
        rfl
    | ok js =>
        cases hp : Json.parse js with
        | none =>
            rw [parseB_eq_badJson content js hex hp]
            apply iff_of_true rfl
            right; left
            exact ⟨js, rfl, hp⟩
        | some parsed =>
            rw [parseB_eq_of_parsed content js parsed hex hp]
            cases hcond : (!truthy (jGet parsed (str "title")) ||
                !truthy (jGet parsed (str "ingredients")) ||
                !truthy (jGet parsed (str "steps"))) with
            | true =>
                apply iff_of_true rfl
                right; right
                refine ⟨parsed, by rw [jsonOfContent_ok content js hex, hp], ?_⟩
                have hd := by simpa using hcond
                tauto
            | false =>
                apply iff_of_false
                · simp [Except.isOk, Except.toBool]
                · simp only [not_or]
                  refine ⟨by simp [Except.isOk, Except.toBool], ?_, ?_⟩
                  · rintro ⟨js2, hj2, hpn⟩
                    injection hj2 with hj3
                    subst hj3
                    rw [hp] at hpn
                    exact Option.noConfusion hpn
                  · rintro ⟨j, hj, hd⟩
                    rw [jsonOfContent_ok content js hex, hp] at hj
                    injection hj with hj2
                    subst hj2
                    simp at hcond
                    rcases hd with d | d | d
                    · rw [hcond.1.1] at d; exact Bool.noConfusion d
                    · rw [hcond.1.2] at d; exact Bool.noConfusion d
                    · rw [hcond.2] at d; exact Bool.noConfusion d
  · intro j h
    cases hex : extractJson content with
    | error e =>
        rw [parseB_eq_of_extract_error content e hex] at h
        exact Except.noConfusion h
    | ok js =>
        cases hp : Json.parse js with
        | none =>
            rw [parseB_eq_badJson content js hex hp] at h
            exact Except.noConfusion h
        | some parsed =>
            rw [parseB_eq_of_parsed content js parsed hex hp] at h
            cases hcond : (!truthy (jGet parsed (str "title")) ||
                !truthy (jGet parsed (str "ingredients")) ||
                !truthy (jGet parsed (str "steps"))) with
            | true =>
                rw [hcond] at h
                exact Except.noConfusion h
            | false =>
                rw [hcond] at h
                injection h with h2
                rw [jsonOfContent_ok content js hex, hp, h2]

/-- Witness for C3: the verbatim-success conjunct discharged at a concrete
successful parse. -/
theorem c3_variant_b_failure_characterization_witness :
    jsonOfContent (str "\x7b\"title\":\"Ok\",\"ingredients\":[1],\"steps\":[1]\x7d") =
      some (Json.obj
        [(str "title", Json.str (str "Ok")),
         (str "ingredients", Json.arr [Json.num 1]),
         (str "steps", Json.arr [Json.num 1])]) :=
  (c3_variant_b_failure_characterization
      (str "\x7b\"title\":\"Ok\",\"ingredients\":[1],\"steps\":[1]\x7d")).2.2
    (Json.obj
      [(str "title", Json.str (str "Ok")),
       (str "ingredients", Json.arr [Json.num 1]),
       (str "steps", Json.arr [Json.num 1])])
    (by rfl)

/-- C8: the line `• Tomato - 2 pcs - vegetable` is mapped to
`{name: Tomato, quantity: 2 pcs, category: vegetable}`; the malformed
bullet line `• Tomato` does not match the extraction regex; and in general
a non-blank bullet line that the regex fails to match is skipped silently
(the loop proceeds to the next line, no default entry is produced). -/
theorem c8_ingredient_line_extraction :
    parseIngredients [str "ИНГРЕДИЕНТЫ:", str "• Tomato - 2 pcs - vegetable"] =
      [{ name := str "Tomato", quantity := str "2 pcs",
         category := str "vegetable" }] ∧
    regexSearch ingredientRegex (str "• Tomato") = none ∧
    (∀ (l : Str) (rest : List Str),
      ingrStop l = false →
      regexSearch ingredientRegex l = none →
      ingrLoop (l :: rest) = ingrLoop rest) := by
  refine ⟨by decide, by decide, ?_⟩
  intro l rest h1 h2
  simp [ingrLoop, h1, h2]

/-- Witness for C8: the skip conjunct discharged at the malformed line
`• Tomato` followed by a well-formed bullet line. -/
theorem c8_ingredient_line_extraction_witness :
    ingrLoop [str "• Tomato", str "• Огурец - 1 шт - vegetable"] =
      ingrLoop [str "• Огурец - 1 шт - vegetable"] :=
  c8_ingredient_line_extraction.2.2 (str "• Tomato")
    [str "• Огурец - 1 шт - vegetable"] (by decide) (by decide)

/-- C10: whenever extraction plus `JSON.parse` delivers an object with a
non-empty string `title` and `ingredients`/`steps` PRESENT as empty
arrays, Variant B succeeds and returns that object (empty lists included):
the required-field check rejects only missing or falsy fields, and an
array is always truthy. -/
theorem c10_empty_arrays_pass :
    (∀ xs : List Json, truthy (some (Json.arr xs)) = true) ∧
    (∀ (content : Str) (j : Json) (t : Str),
      jsonOfContent content = some j →
      jGet j (str "title") = some (Json.str t) →
      t ≠ [] →
      jGet j (str "ingredients") = some (Json.arr []) →
      jGet j (str "steps") = some (Json.arr []) →
      parseRecipeResponseB content = Except.ok j) := by
  refine ⟨fun xs => rfl, ?_⟩
  intro content j t hj ht hne hi hs
  cases hex : extractJson content with
  | error e =>
      rw [jsonOfContent] at hj
      rw [hex] at hj
      exact Option.noConfusion hj
  | ok js =>
      rw [jsonOfContent_ok content js hex] at hj
      rw [parseB_eq_of_parsed content js j hex hj, ht, hi, hs]
      simp [truthy, List.isEmpty_iff, hne]

/-- Witness for C10: discharged at a concrete text whose JSON object has a
non-empty title and empty `ingredients`/`steps` arrays. -/
theorem c10_empty_arrays_pass_witness :
    parseRecipeResponseB
      (str "\x7b\"title\":\"T\",\"ingredients\":[],\"steps\":[]\x7d") =
      Except.ok (Json.obj
        [(str "title", Json.str (str "T")),
         (str "ingredients", Json.arr []),
         (str "steps", Json.arr [])]) :=
  c10_empty_arrays_pass.2
    (str "\x7b\"title\":\"T\",\"ingredients\":[],\"steps\":[]\x7d")
    (Json.obj
      [(str "title", Json.str (str "T")),
       (str "ingredients", Json.arr []),
       (str "steps", Json.arr [])])
    (str "T") (by rfl) (by rfl) (by decide) (by rfl) (by rfl)

/-- C9: numeric extraction takes the first maximal digit run of a line;
after the nutrition header only the fixed window of (at most) 5 following
lines is scanned, and every field whose label occurs in none of those
window lines keeps its default (350/20/40/15/8); concretely, a block
missing the fiber line keeps fiber = 8 while parsing the present labels. -/
theorem c9_nutrition_window :
    (∀ text : Str,
      extractNumber text = (firstDigitRun text).elim 0 digitsToNat) ∧
    (∀ (lines : List Str) (i : Nat),
      lines.findIdx?
        (fun l => containsSubstr (str "ПИТАТЕЛЬНАЯ ЦЕННОСТЬ") l) = some i →
      (((∀ l ∈ (lines.drop (i + 1)).take 5,
            containsSubstr (str "Калории:") l = false) →
          (parseNutritionalInfo lines).calories = 350) ∧
       ((∀ l ∈ (lines.drop (i + 1)).take 5,
            containsSubstr (str "Белки:") l = false) →
          (parseNutritionalInfo lines).proteins = 20) ∧
       ((∀ l ∈ (lines.drop (i + 1)).take 5,
            containsSubstr (str "Углеводы:") l = false) →
          (parseNutritionalInfo lines).carbs = 40) ∧
       ((∀ l ∈ (lines.drop (i + 1)).take 5,
            containsSubstr (str "Жиры:") l = false) →
          (parseNutritionalInfo lines).fats = 15) ∧
       ((∀ l ∈ (lines.drop (i + 1)).take 5,
            containsSubstr (str "Клетчатка:") l = false) →
          (parseNutritionalInfo lines).fiber = 8))) ∧
    parseNutritionalInfo (linesOf
      (str "ПИТАТЕЛЬНАЯ ЦЕННОСТЬ (на порцию):\n• Калории: 320 ккал\n• Белки: 25 г\n• Углеводы: 35 г\n• Жиры: 12 г")) =
      { calories := 320, proteins := 25, carbs := 35, fats := 12,
        fiber := 8 } := by
  refine ⟨extractNumber_eq_firstDigitRun, ?_, by decide⟩
  intro lines i hidx
  have heq : parseNutritionalInfo lines =
      nutriLoop ((lines.drop (i + 1)).take 5) defaultNutritionalInfo := by
    unfold parseNutritionalInfo
    rw [hidx]
  rw [heq]
  exact ⟨fun hall => nutriLoop_preserve NutritionalInfo.calories
      (containsSubstr (str "Калории:")) nutriUpdate_calories _ _ hall,
    fun hall => nutriLoop_preserve NutritionalInfo.proteins
      (containsSubstr (str "Белки:")) nutriUpdate_proteins _ _ hall,
    fun hall => nutriLoop_preserve NutritionalInfo.carbs
      (containsSubstr (str "Углеводы:")) nutriUpdate_carbs _ _ hall,
    fun hall => nutriLoop_preserve NutritionalInfo.fats
      (containsSubstr (str "Жиры:")) nutriUpdate_fats _ _ hall,
    fun hall => nutriLoop_preserve NutritionalInfo.fiber
      (containsSubstr (str "Клетчатка:")) nutriUpdate_fiber _ _ hall⟩

/-- Witness for C9: the window conjuncts discharged on a concrete block in
which only the calories label is present. -/
theorem c9_nutrition_window_witness :
    (parseNutritionalInfo (linesOf
      (str "ПИТАТЕЛЬНАЯ ЦЕННОСТЬ:\n• Калории: 200 ккал"))).fiber = 8 ∧
    (parseNutritionalInfo (linesOf
      (str "ПИТАТЕЛЬНАЯ ЦЕННОСТЬ:\n• Калории: 200 ккал"))).proteins = 20 :=
  ⟨(c9_nutrition_window.2.1 (linesOf
      (str "ПИТАТЕЛЬНАЯ ЦЕННОСТЬ:\n• Калории: 200 ккал")) 0
      (by decide)).2.2.2.2 (by decide),
   (c9_nutrition_window.2.1 (linesOf
      (str "ПИТАТЕЛЬНАЯ ЦЕННОСТЬ:\n• Калории: 200 ккал")) 0
      (by decide)).2.1 (by decide)⟩

/-- A substring of the left part is a substring of an append. -/
theorem infix_append_of_infix_left (pat l r : Str) (h : pat <:+: l) :
    pat <:+: l ++ r :=
  h.trans (List.prefix_append l r).isInfix

/-- A substring of the right part is a substring of an append. -/
theorem infix_append_of_infix_right (pat l r : Str) (h : pat <:+: r) :
    pat <:+: l ++ r :=
  h.trans (List.suffix_append l r).isInfix

set_option maxRecDepth 16384 in
/-- C5 (counterexample): a valid request (2 ingredients, non-empty names)
whose two ingredients share the name `Tomato` produces prompts (in both
builder variants) containing `Tomato` TWICE, not exactly once. -/
theorem c5_prompt_uniqueness_counterexample :
    dupReq.ingredients.length = 2 ∧
    (∀ ing ∈ dupReq.ingredients, ing.name ≠ []) ∧
    occCount (str "Tomato") (buildPrompt dupReq) = 2 ∧
    occCount (str "Tomato") (createUserPrompt dupReq) = 2 := by
  refine ⟨by decide, by decide, by decide, by decide⟩

/-- C5 (amended): for every request, both prompt builders' outputs contain
every ingredient's name at least once (an ingredient name can occur more
often, e.g. when repeated across ingredients or echoed by other request
fields). -/
theorem c5_prompt_contains_names :
    ∀ (req : RecipeGenerationRequest) (ing : ReqIngredient),
      ing ∈ req.ingredients →
      1 ≤ occCount ing.name (buildPrompt req) ∧
      1 ≤ occCount ing.name (createUserPrompt req) := by
  intro req ing hmem
  have hInB : ing.name <:+: bpIngredients req := by
    unfold bpIngredients
    refine List.IsInfix.trans ?_ (infix_of_mem_joinSep _ _ _
      (List.mem_map_of_mem
        (fun i => str "- " ++ i.name ++ str " (" ++ i.category ++ str ")")
        hmem))
    exact ⟨str "- ", str " (" ++ ing.category ++ str ")",
      by simp [List.append_assoc]⟩
  have hInC : ing.name <:+: cupIngredientsList req := by
    unfold cupIngredientsList
    refine List.IsInfix.trans ?_ (infix_of_mem_joinSep _ _ _
      (List.mem_map_of_mem
        (fun i => str "• " ++ i.name ++ str " (" ++
          translateCategory i.category ++ str ")")
        hmem))
    exact ⟨str "• ", str " (" ++ translateCategory ing.category ++ str ")",
      by simp [List.append_assoc]⟩
  constructor
  · apply one_le_occCount_of_infix
    unfold buildPrompt
    refine List.IsInfix.trans ?_ (infix_of_mem_joinSep (str "\n") _
      (str "Ингредиенты:\n" ++ bpIngredients req) (by simp))
    exact infix_append_of_infix_right _ _ _ hInB
  · apply one_le_occCount_of_infix
    unfold createUserPrompt
    apply infix_append_of_infix_left
    apply infix_append_of_infix_left
    apply infix_append_of_infix_left
    apply infix_append_of_infix_left
    apply infix_append_of_infix_left
    apply infix_append_of_infix_left
    apply infix_append_of_infix_left
    apply infix_append_of_infix_right
    exact hInC

/-- Witness for C5: the membership hypothesis discharged at the
single-ingredient request. -/
theorem c5_prompt_contains_names_witness :
    1 ≤ occCount (str "Tomato") (buildPrompt tomatoReq) ∧
    1 ≤ occCount (str "Tomato") (createUserPrompt tomatoReq) :=
  c5_prompt_contains_names tomatoReq
    { name := str "Tomato", category := str "vegetable" } (by decide)
